import Mathlib

/-!
# Wine Label Cropper — verification of the detection-to-crop pipeline

Shallow embedding of the server pipeline of the wine_label_cropper
repository: `base64ToBuffer`, `getImageDimensions`, `detectWineLabels`,
the coordinate-mapping step of `cropImageSharp` (the spec's
`mapToPixelRect`), and the orchestrator `processWineImage`.

JavaScript numbers are modelled as rationals (`ℚ`); the literal `0.05`
is modelled as `5/100`.  `Math.floor` / `Math.ceil` are `Int.floor` /
`Int.ceil`.  External collaborators (the sharp image library, the LLM
service, object storage, `JSON.parse`) are modelled as oracle data
threaded through a `PipelineEnv`, and the side effects performed by a
pipeline run are recorded as an explicit event trace.
-/

set_option autoImplicit false

/-- A normalized bounding box as returned by the detector: four numbers
`ymin, xmin, ymax, xmax` on the 0–1000 grid (field order as in the
source `BoundingBox` interface). -/
structure BoundingBox where
  ymin : ℚ
  xmin : ℚ
  ymax : ℚ
  xmax : ℚ
  deriving DecidableEq, Repr

/-- An axis-aligned rectangle in pixel coordinates (integers, since the
source builds it from `Math.floor` / `Math.ceil` / `Math.max` / `Math.min`
of integer-valued quantities). -/
structure PixelRect where
  x : ℤ
  y : ℤ
  w : ℤ
  h : ℤ
  deriving DecidableEq, Repr

/-- The unpadded pixel rectangle computed by `cropImageSharp`
(`pixelX`/`pixelY`/`pixelW`/`pixelH`, lines 147–153):
`scaleX = width/1000`, `scaleY = height/1000`, origin floored, extent
ceiled. -/
def basePixelRect (box : BoundingBox) (imageWidth imageHeight : ℕ) : PixelRect :=
  let scaleX : ℚ := (imageWidth : ℚ) / 1000
  let scaleY : ℚ := (imageHeight : ℚ) / 1000
  { x := ⌊box.xmin * scaleX⌋
    y := ⌊box.ymin * scaleY⌋
    w := ⌈(box.xmax - box.xmin) * scaleX⌉
    h := ⌈(box.ymax - box.ymin) * scaleY⌉ }

/-- Horizontal safety padding `padW = Math.max(1, Math.floor(pixelW * 0.05))`
(line 155). -/
def cropPadW (box : BoundingBox) (imageWidth imageHeight : ℕ) : ℤ :=
  max 1 ⌊((basePixelRect box imageWidth imageHeight).w : ℚ) * (5 / 100)⌋

/-- Vertical safety padding `padH = Math.max(1, Math.floor(pixelH * 0.05))`
(line 156). -/
def cropPadH (box : BoundingBox) (imageWidth imageHeight : ℕ) : ℤ :=
  max 1 ⌊((basePixelRect box imageWidth imageHeight).h : ℚ) * (5 / 100)⌋

/-- The coordinate-mapping step of `cropImageSharp` (lines 150–161), the
spec's `mapToPixelRect`: pad the base rectangle, clamp the origin to 0,
then bound the extent against the space remaining from the *clamped*
origin (`cropX`/`cropY`/`cropW`/`cropH`). -/
def mapToPixelRect (box : BoundingBox) (imageWidth imageHeight : ℕ) : PixelRect :=
  let base := basePixelRect box imageWidth imageHeight
  let padW := cropPadW box imageWidth imageHeight
  let padH := cropPadH box imageWidth imageHeight
  let cropX := max 0 (base.x - padW)
  let cropY := max 0 (base.y - padH)
  { x := cropX
    y := cropY
    w := min ((imageWidth : ℤ) - cropX) (base.w + padW * 2)
    h := min ((imageHeight : ℤ) - cropY) (base.h + padH * 2) }

/-- C1: for every normalized bounding box and every positive image width
and height, the rectangle computed by the coordinate-mapping step of
`cropImageSharp` satisfies `x ≥ 0`, `y ≥ 0`, `x + w ≤ imageWidth` and
`y + h ≤ imageHeight`: the origin is clamped to 0 first and the extent is
then bounded against the space remaining from the clamped origin. -/
theorem mapToPixelRect_in_bounds (box : BoundingBox) (imageWidth imageHeight : ℕ)
    (hW : 0 < imageWidth) (hH : 0 < imageHeight) :
    0 ≤ (mapToPixelRect box imageWidth imageHeight).x ∧
    0 ≤ (mapToPixelRect box imageWidth imageHeight).y ∧
    (mapToPixelRect box imageWidth imageHeight).x +
      (mapToPixelRect box imageWidth imageHeight).w ≤ (imageWidth : ℤ) ∧
    (mapToPixelRect box imageWidth imageHeight).y +
      (mapToPixelRect box imageWidth imageHeight).h ≤ (imageHeight : ℤ) := by
  unfold mapToPixelRect
  dsimp only
  omega

/-- Witness for C1 at the box (100, 200, 500, 700) on a 1000×1000 image. -/
theorem mapToPixelRect_in_bounds_witness :
    0 ≤ (mapToPixelRect ⟨100, 200, 500, 700⟩ 1000 1000).x ∧
    0 ≤ (mapToPixelRect ⟨100, 200, 500, 700⟩ 1000 1000).y ∧
    (mapToPixelRect ⟨100, 200, 500, 700⟩ 1000 1000).x +
      (mapToPixelRect ⟨100, 200, 500, 700⟩ 1000 1000).w ≤ (1000 : ℤ) ∧
    (mapToPixelRect ⟨100, 200, 500, 700⟩ 1000 1000).y +
      (mapToPixelRect ⟨100, 200, 500, 700⟩ 1000 1000).h ≤ (1000 : ℤ) :=
  mapToPixelRect_in_bounds ⟨100, 200, 500, 700⟩ 1000 1000 (by decide) (by decide)

/-- Scaling a coordinate that is at most 1000 onto an `n`-pixel axis and
flooring never exceeds `n`. -/
theorem floor_scale_le (q : ℚ) (n : ℕ) (hq : q ≤ 1000) :
    ⌊q * ((n : ℚ) / 1000)⌋ ≤ (n : ℤ) := by
  have hs : (0 : ℚ) ≤ (n : ℚ) / 1000 := by positivity
  have h1 : q * ((n : ℚ) / 1000) ≤ 1000 * ((n : ℚ) / 1000) :=
    mul_le_mul_of_nonneg_right hq hs
  have h2 : (1000 : ℚ) * ((n : ℚ) / 1000) = (n : ℚ) := by field_simp
  have h3 : q * ((n : ℚ) / 1000) ≤ ((n : ℚ)) := h1.trans_eq h2
  have h4 := Int.floor_mono h3
  rwa [Int.floor_natCast] at h4

/-- Scaling a nonnegative extent and ceiling stays nonnegative. -/
theorem ceil_scale_nonneg (q : ℚ) (n : ℕ) (hq : 0 ≤ q) :
    0 ≤ ⌈q * ((n : ℚ) / 1000)⌉ :=
  Int.ceil_nonneg (mul_nonneg hq (by positivity))

/-- C3 counterexample: the inverted box (ymin 0, xmin 1000, ymax 0, xmax 0),
whose four coordinates all lie in [0, 1000], mapped onto a 1000×1000 image
yields a clamped width of −998, falsifying "width ≥ 1 after clamping" for
arbitrary normalized bounding boxes. -/
theorem mapToPixelRect_inverted_box_cex :
    (0 : ℕ) < 1000 ∧
    (mapToPixelRect ⟨0, 1000, 0, 0⟩ 1000 1000).w = -998 ∧
    ¬ 1 ≤ (mapToPixelRect ⟨0, 1000, 0, 0⟩ 1000 1000).w := by
  norm_num [mapToPixelRect, basePixelRect, cropPadW, cropPadH, Rat.floor_def, Int.ceil_neg]

/-- C3 amended: for every normalized bounding box whose coordinates lie in
[0, 1000] and satisfy `xmin ≤ xmax` and `ymin ≤ ymax`, and every positive
image width and height, the clamped rectangle has width ≥ 1 and
height ≥ 1. -/
theorem mapToPixelRect_extent_pos (box : BoundingBox) (imageWidth imageHeight : ℕ)
    (h0x : 0 ≤ box.xmin) (h1x : box.xmin ≤ 1000)
    (h0y : 0 ≤ box.ymin) (h1y : box.ymin ≤ 1000)
    (h2x : box.xmax ≤ 1000) (h2y : box.ymax ≤ 1000)
    (hox : box.xmin ≤ box.xmax) (hoy : box.ymin ≤ box.ymax)
    (hW : 0 < imageWidth) (hH : 0 < imageHeight) :
    1 ≤ (mapToPixelRect box imageWidth imageHeight).w ∧
    1 ≤ (mapToPixelRect box imageWidth imageHeight).h := by
  have hbx : (basePixelRect box imageWidth imageHeight).x ≤ (imageWidth : ℤ) :=
    floor_scale_le box.xmin imageWidth h1x
  have hby : (basePixelRect box imageWidth imageHeight).y ≤ (imageHeight : ℤ) :=
    floor_scale_le box.ymin imageHeight h1y
  have hbw : 0 ≤ (basePixelRect box imageWidth imageHeight).w :=
    ceil_scale_nonneg _ imageWidth (sub_nonneg.mpr hox)
  have hbh : 0 ≤ (basePixelRect box imageWidth imageHeight).h :=
    ceil_scale_nonneg _ imageHeight (sub_nonneg.mpr hoy)
  have hpw : 1 ≤ cropPadW box imageWidth imageHeight := le_max_left _ _
  have hph : 1 ≤ cropPadH box imageWidth imageHeight := le_max_left _ _
  unfold mapToPixelRect
  dsimp only
  omega

/-- Witness for the amended C3 at the box (100, 200, 500, 700) on a
1000×1000 image. -/
theorem mapToPixelRect_extent_pos_witness :
    1 ≤ (mapToPixelRect ⟨100, 200, 500, 700⟩ 1000 1000).w ∧
    1 ≤ (mapToPixelRect ⟨100, 200, 500, 700⟩ 1000 1000).h :=
  mapToPixelRect_extent_pos ⟨100, 200, 500, 700⟩ 1000 1000 (by decide) (by decide)
    (by decide) (by decide) (by decide) (by decide) (by decide) (by decide)
    (by decide) (by decide)

/-- C4: mapping the box (ymin 100, xmin 200, ymax 500, xmax 700) onto a
1000×1000 image yields base rectangle x=200, y=100, w=500, h=400, padding
padW=25, padH=20, and final padded-and-clamped rectangle x=175, y=80,
w=550, h=440. -/
theorem mapToPixelRect_example :
    basePixelRect ⟨100, 200, 500, 700⟩ 1000 1000 = ⟨200, 100, 500, 400⟩ ∧
    cropPadW ⟨100, 200, 500, 700⟩ 1000 1000 = 25 ∧
    cropPadH ⟨100, 200, 500, 700⟩ 1000 1000 = 20 ∧
    mapToPixelRect ⟨100, 200, 500, 700⟩ 1000 1000 = ⟨175, 80, 550, 440⟩ := by
  norm_num [mapToPixelRect, basePixelRect, cropPadW, cropPadH, PixelRect.mk.injEq,
    Rat.floor_def]

/-- C7: for every normalized bounding box and every positive image width
and height, the padding computed by `cropImageSharp` is at least one pixel
in each axis. -/
theorem cropPad_ge_one (box : BoundingBox) (imageWidth imageHeight : ℕ)
    (hW : 0 < imageWidth) (hH : 0 < imageHeight) :
    1 ≤ cropPadW box imageWidth imageHeight ∧
    1 ≤ cropPadH box imageWidth imageHeight :=
  ⟨le_max_left _ _, le_max_left _ _⟩

/-- Witness for C7 at a degenerate zero-area box, where the unpadded pixel
width and height round to 0. -/
theorem cropPad_ge_one_witness :
    1 ≤ cropPadW ⟨0, 0, 0, 0⟩ 1000 1000 ∧
    1 ≤ cropPadH ⟨0, 0, 0, 0⟩ 1000 1000 :=
  cropPad_ge_one ⟨0, 0, 0, 0⟩ 1000 1000 (by decide) (by decide)

/-- A word character of the JavaScript regex class `\w`: ASCII letters,
digits and underscore. -/
def isWordChar (c : Char) : Bool := c.isAlphanum || c == '_'

/-- A JavaScript regex line terminator, which the unflagged `.` in
`(.*)` does not match. -/
def isLineTerminatorChar (c : Char) : Bool :=
  c == '\n' || c == '\r' || c == ' ' || c == ' '

/-- Consumes the first list as a literal pattern from the front of the
second, returning the remainder on success. -/
def stripLeading : List Char → List Char → Option (List Char)
  | [], cs => some cs
  | _ :: _, [] => none
  | p :: ps, c :: cs => if c = p then stripLeading ps cs else none

/-- The match of `/^data:image\/(\w+);base64,(.*)$/` against a string,
returning the two capture groups (image subtype and base64 payload) on
success.  Because `\w` cannot match `;`, the greedy `\w+` is
deterministic here, so a straight-line parse is equivalent to the
backtracking regex. -/
def dataUriMatch (s : String) : Option (String × String) :=
  match stripLeading "data:image/".data s.data with
  | none => none
  | some rest =>
    let imageType := rest.takeWhile isWordChar
    let afterType := rest.dropWhile isWordChar
    if imageType.isEmpty then none
    else
      match stripLeading ";base64,".data afterType with
      | none => none
      | some payload =>
        if payload.all (fun c => ! isLineTerminatorChar c) then
          some (⟨imageType⟩, ⟨payload⟩)
        else none

/-- The source `base64ToBuffer` (lines 57–63): throws
`"Invalid base64 image data"` when the regex does not match, and
otherwise decodes the second capture group (the decode itself is the
external `Buffer.from`, which never throws on base64 input; the payload
string stands for the resulting buffer). -/
def base64ToBuffer (base64 : String) : Except String String :=
  match dataUriMatch base64 with
  | none => Except.error "Invalid base64 image data"
  | some m => Except.ok m.2

/-- C9: `base64ToBuffer` raises "Invalid base64 image data" exactly when
the input fails the regex `^data:image\/(\w+);base64,(.*)$`; an empty
payload is accepted, while the subtype `svg+xml` is rejected because `+`
is not a word character. -/
theorem base64ToBuffer_regex_behavior :
    (∀ s : String,
      base64ToBuffer s = Except.error "Invalid base64 image data" ↔ dataUriMatch s = none) ∧
    base64ToBuffer "data:image/png;base64," = Except.ok "" ∧
    base64ToBuffer "data:image/svg+xml;base64,AAAA" =
      Except.error "Invalid base64 image data" := by
  refine ⟨fun s => ?_, rfl, rfl⟩
  cases h : dataUriMatch s <;> simp [base64ToBuffer, h]

/-- The result of `sharp(buffer).metadata()`: width and height may each be
absent. -/
structure SharpMetadata where
  width : Option ℕ
  height : Option ℕ
  deriving DecidableEq, Repr

/-- Image dimensions in pixels. -/
structure Dimensions where
  width : ℕ
  height : ℕ
  deriving DecidableEq, Repr

/-- JavaScript `v || d` on an optional numeric field: `undefined` and `0`
are both falsy. -/
def jsOrDefault (v : Option ℕ) (d : ℕ) : ℕ :=
  match v with
  | none => d
  | some n => if n = 0 then d else n

/-- The source `getImageDimensions` (lines 65–73):
`metadata.width || 1000`, `metadata.height || 1000`. -/
def getImageDimensions (metadata : SharpMetadata) : Dimensions :=
  { width := jsOrDefault metadata.width 1000
    height := jsOrDefault metadata.height 1000 }

/-- A JSON value as produced by `JSON.parse` on the model's reply.  The
request constrains the reply with a strict JSON schema under which an
array can only be an array of bounding-box objects, so the array
constructor carries boxes; the other constructors model the remaining
JSON shapes. -/
inductive ModelJson where
  | jNull
  | jBool (b : Bool)
  | jNum (q : ℚ)
  | jStr (s : String)
  | jObj
  | jArr (boxes : List BoundingBox)
  deriving DecidableEq, Repr

deriving instance DecidableEq for Except

/-- The `response.choices[0]?.message?.content` of the model reply:
absent, present but not a string, or a string characterised by its
`JSON.parse` outcome (`Except.error` when `JSON.parse` would throw). -/
inductive ResponseContent where
  | missing
  | nonString
  | stringContent (parsed : Except String ModelJson)
  deriving DecidableEq, Repr

/-- The parse step of `detectWineLabels` (lines 126–137): missing or
non-string content returns `[]`; a `JSON.parse` exception is caught and
returns `[]`; a parse to a non-array returns `[]`; an array is returned
as-is, with no validation of its elements. -/
def detectWineLabels (content : ResponseContent) : List BoundingBox :=
  match content with
  | .missing => []
  | .nonString => []
  | .stringContent (Except.error _) => []
  | .stringContent (Except.ok (ModelJson.jArr boxes)) => boxes
  | .stringContent (Except.ok _) => []

/-- Response content in one of the failure shapes named by the spec:
missing, not a string, malformed JSON, or JSON parsing to a non-array. -/
def malformedContent (content : ResponseContent) : Bool :=
  match content with
  | .missing => true
  | .nonString => true
  | .stringContent (Except.error _) => true
  | .stringContent (Except.ok (ModelJson.jArr _)) => false
  | .stringContent (Except.ok _) => true

/-- The `[bbox.ymin, bbox.xmin, bbox.ymax, bbox.xmax]` tuple pushed into
both result arrays (lines 203 and 206). -/
def bboxTuple (box : BoundingBox) : ℚ × ℚ × ℚ × ℚ :=
  (box.ymin, box.xmin, box.ymax, box.xmax)

/-- The source `CropResult`: identifier, stored URL, and originating
bounding box. -/
structure CropResult where
  id : String
  url : String
  bbox : ℚ × ℚ × ℚ × ℚ
  deriving DecidableEq, Repr

/-- The source `ProcessingResult`: the parallel `crops` and `bboxes`
arrays. -/
structure ProcessingResult where
  crops : List CropResult
  bboxes : List (ℚ × ℚ × ℚ × ℚ)
  deriving DecidableEq, Repr

/-- One observable side effect of a pipeline run: the detector request,
the metadata read (with the dimensions it returned), a `cropImageSharp`
call (with the box handed to it), or a `storagePut` call. -/
inductive PipelineEvent where
  | detectCall
  | readDims (dims : Dimensions)
  | cropCall (i : ℕ) (box : BoundingBox)
  | storeCall (i : ℕ)
  deriving DecidableEq, Repr

/-- Oracles for the external collaborators of one `processWineImage`
run: the model reply, the sharp metadata of the decoded buffer, whether
the crop / store step for the i-th box throws, the `nanoid()` drawn for
the i-th box, and the URL `storagePut` returns for a key. -/
structure PipelineEnv where
  content : ResponseContent
  metadata : SharpMetadata
  cropFails : ℕ → Bool
  storeFails : ℕ → Bool
  ids : ℕ → String
  urlOf : String → String

/-- The i-th box's per-box step fails when its crop throws or its store
throws (a store is only attempted when the crop succeeded). -/
def boxStepFails (env : PipelineEnv) (i : ℕ) : Bool :=
  env.cropFails i || env.storeFails i

/-- The per-box loop of `processWineImage` (lines 185–210), starting at
box index `i`: each box is cropped and stored inside a `try`/`catch`, a
failing box is logged and skipped, and a successful box appends to both
`crops` and `bboxes`.  Returns the two arrays and the event trace. -/
def processBoxes (env : PipelineEnv) :
    ℕ → List BoundingBox →
    List CropResult × List (ℚ × ℚ × ℚ × ℚ) × List PipelineEvent
  | _, [] => ([], [], [])
  | i, box :: rest =>
    let r := processBoxes env (i + 1) rest
    if env.cropFails i then
      (r.1, r.2.1, PipelineEvent.cropCall i box :: r.2.2)
    else if env.storeFails i then
      (r.1, r.2.1,
       PipelineEvent.cropCall i box :: PipelineEvent.storeCall i :: r.2.2)
    else
      ({ id := env.ids i,
         url := env.urlOf ("wine-crops/" ++ env.ids i ++ ".png"),
         bbox := bboxTuple box } :: r.1,
       bboxTuple box :: r.2.1,
       PipelineEvent.cropCall i box :: PipelineEvent.storeCall i :: r.2.2)

/-- The source `processWineImage` (lines 169–217): decode the data URI
(fail fast on a regex mismatch), detect labels, return an empty result on
zero boxes, otherwise read dimensions once and run the per-box loop.
Returns the result (or the propagated error) together with the event
trace of the run. -/
def processWineImage (env : PipelineEnv) (imageBase64 : String) :
    Except String ProcessingResult × List PipelineEvent :=
  match base64ToBuffer imageBase64 with
  | Except.error e => (Except.error e, [])
  | Except.ok _ =>
    let detectedLabels := detectWineLabels env.content
    if detectedLabels.length = 0 then
      (Except.ok ⟨[], []⟩, [PipelineEvent.detectCall])
    else
      let dims := getImageDimensions env.metadata
      let r := processBoxes env 0 detectedLabels
      (Except.ok ⟨r.1, r.2.1⟩,
       PipelineEvent.detectCall :: PipelineEvent.readDims dims :: r.2.2)

/-- In the per-box loop, every crop result carries exactly the tuple that
was pushed into `bboxes` at the same position: the two arrays are always
index-aligned. -/
theorem processBoxes_crops_map_bbox (env : PipelineEnv) (i : ℕ)
    (boxes : List BoundingBox) :
    (processBoxes env i boxes).1.map CropResult.bbox =
      (processBoxes env i boxes).2.1 := by
  induction boxes generalizing i with
  | nil => rfl
  | cons box rest ih =>
    rw [processBoxes]
    by_cases hc : env.cropFails i
    · simpa [hc] using ih (i + 1)
    · by_cases hs : env.storeFails i
      · simpa [hc, hs] using ih (i + 1)
      · simpa [hc, hs] using ih (i + 1)

/-- When no box in the range fails, the per-box loop keeps every box, in
order. -/
theorem processBoxes_bboxes_noFail (env : PipelineEnv)
    (boxes : List BoundingBox) (i : ℕ)
    (h : ∀ j, j < boxes.length → boxStepFails env (i + j) = false) :
    (processBoxes env i boxes).2.1 = boxes.map bboxTuple := by
  induction boxes generalizing i with
  | nil => rfl
  | cons box rest ih =>
    have h0 : boxStepFails env i = false := by simpa using h 0 (by simp)
    have hcs : env.cropFails i = false ∧ env.storeFails i = false := by
      simpa [boxStepFails] using h0
    have hrest : ∀ j, j < rest.length → boxStepFails env ((i + 1) + j) = false := by
      intro j hj
      have hj' : j + 1 < (box :: rest).length := by simpa using Nat.succ_lt_succ hj
      have := h (j + 1) hj'
      rwa [show i + (j + 1) = (i + 1) + j by omega] at this
    rw [processBoxes]
    simp [hcs.1, hcs.2, ih (i + 1) hrest]

/-- When exactly the box at (relative) position `k` fails, the per-box
loop produces exactly the other boxes, in order. -/
theorem processBoxes_bboxes_oneFail (env : PipelineEnv) :
    ∀ (boxes : List BoundingBox) (i k : ℕ),
      k < boxes.length →
      boxStepFails env (i + k) = true →
      (∀ j, j < boxes.length → j ≠ k → boxStepFails env (i + j) = false) →
      (processBoxes env i boxes).2.1 = (boxes.eraseIdx k).map bboxTuple := by
  intro boxes
  induction boxes with
  | nil => intro i k hk; exact absurd hk (by simp)
  | cons box rest ih =>
    intro i k hk hfail honly
    cases k with
    | zero =>
      have hfail0 : boxStepFails env i = true := by simpa using hfail
      have hrest : ∀ j, j < rest.length → boxStepFails env ((i + 1) + j) = false := by
        intro j hj
        have hj' : j + 1 < (box :: rest).length := by simpa using Nat.succ_lt_succ hj
        have := honly (j + 1) hj' (by omega)
        rwa [show i + (j + 1) = (i + 1) + j by omega] at this
      have hkeep := processBoxes_bboxes_noFail env rest (i + 1) hrest
      rw [processBoxes, List.eraseIdx_cons_zero]
      by_cases hc : env.cropFails i
      · simpa [hc] using hkeep
      · have hs : env.storeFails i = true := by
          rcases Bool.or_eq_true_iff.mp (by simpa [boxStepFails] using hfail0) with h | h
        
          · exact absurd h hc
          · exact h
        simpa [hc, hs] using hkeep
    | succ m =>
      have h0 : boxStepFails env i = false := by
        simpa using honly 0 (by simp) (by omega)
      have hcs : env.cropFails i = false ∧ env.storeFails i = false := by
        simpa [boxStepFails] using h0
      have hm : m < rest.length := by simpa using hk
      have hfail' : boxStepFails env ((i + 1) + m) = true := by
        rwa [show (i + 1) + m = i + (m + 1) by omega]
      have honly' : ∀ j, j < rest.length → j ≠ m → boxStepFails env ((i + 1) + j) = false := by
        intro j hj hjm
        have hj' : j + 1 < (box :: rest).length := by simpa using Nat.succ_lt_succ hj
        have := honly (j + 1) hj' (by omega)
        rwa [show i + (j + 1) = (i + 1) + j by omega] at this
      rw [processBoxes, List.eraseIdx_cons_succ]
      simp [hcs.1, hcs.2, ih (i + 1) m hm hfail' honly']

/-- C2: for every detector result of N boxes in which exactly the box at
index k fails its crop or store step, `processWineImage` succeeds with
exactly N−1 entries in `crops` and in `bboxes`, the two arrays
index-aligned (`crops[i].bbox = bboxes[i]`), and `bboxes` equal to the
tuples of the N−1 surviving boxes in order: the failing box is skipped
without aborting the batch. -/
theorem processWineImage_one_box_failure
    (env : PipelineEnv) (s : String) (boxes : List BoundingBox) (k : ℕ)
    (hcontent : env.content =
      ResponseContent.stringContent (Except.ok (ModelJson.jArr boxes)))
    (hs : (dataUriMatch s).isSome = true)
    (hk : k < boxes.length)
    (hfail : boxStepFails env k = true)
    (honly : ∀ j, j < boxes.length → j ≠ k → boxStepFails env j = false) :
    ∃ r : ProcessingResult,
      (processWineImage env s).1 = Except.ok r ∧
      r.crops.length = boxes.length - 1 ∧
      r.bboxes.length = boxes.length - 1 ∧
      r.crops.map CropResult.bbox = r.bboxes ∧
      r.bboxes = (boxes.eraseIdx k).map bboxTuple := by
  obtain ⟨m, hm⟩ := Option.isSome_iff_exists.mp hs
  have hdet : detectWineLabels env.content = boxes := by rw [hcontent]; rfl
  have hlen : ¬ boxes.length = 0 := by omega
  have hbb : (processBoxes env 0 boxes).2.1 = (boxes.eraseIdx k).map bboxTuple :=
    processBoxes_bboxes_oneFail env boxes 0 k hk (by simpa using hfail)
      (fun j hj hjk => by simpa using honly j hj hjk)
  have hmap := processBoxes_crops_map_bbox env 0 boxes
  have herase : (boxes.eraseIdx k).length = boxes.length - 1 :=
    List.length_eraseIdx_of_lt hk
  refine ⟨⟨(processBoxes env 0 boxes).1, (processBoxes env 0 boxes).2.1⟩, ?_, ?_, ?_, ?_, ?_⟩
  · simp [processWineImage, base64ToBuffer, hm, hdet, hlen]
  · have : (processBoxes env 0 boxes).1.length = (processBoxes env 0 boxes).2.1.length := by
      rw [← hmap, List.length_map]
    simp only [this, hbb, List.length_map, herase]
  · simp only [hbb, List.length_map, herase]
  · exact hmap
  · exact hbb

/-- First witness box: (ymin 100, xmin 200, ymax 500, xmax 700). -/
def boxA : BoundingBox := ⟨100, 200, 500, 700⟩

/-- Second witness box: (ymin 300, xmin 400, ymax 600, xmax 800). -/
def boxB : BoundingBox := ⟨300, 400, 600, 800⟩

/-- Witness environment for C2: two detected boxes, the first of which
fails its crop step. -/
def envC2 : PipelineEnv :=
  { content := ResponseContent.stringContent (Except.ok (ModelJson.jArr [boxA, boxB]))
    metadata := { width := some 1000, height := some 1000 }
    cropFails := fun i => i == 0
    storeFails := fun _ => false
    ids := fun _ => "crop1"
    urlOf := fun key => "https://storage.example/" ++ key }

/-- Witness for C2: two boxes, the first fails, one aligned entry
survives. -/
theorem processWineImage_one_box_failure_witness :
    ∃ r : ProcessingResult,
      (processWineImage envC2 "data:image/png;base64,AAAA").1 = Except.ok r ∧
      r.crops.length = [boxA, boxB].length - 1 ∧
      r.bboxes.length = [boxA, boxB].length - 1 ∧
      r.crops.map CropResult.bbox = r.bboxes ∧
      r.bboxes = ([boxA, boxB].eraseIdx 0).map bboxTuple :=
  processWineImage_one_box_failure envC2 "data:image/png;base64,AAAA" [boxA, boxB] 0
    rfl rfl (by decide) rfl (by decide)

/-- Content in one of the spec's failure shapes parses to no boxes. -/
theorem detectWineLabels_malformed_nil (content : ResponseContent)
    (h : malformedContent content = true) :
    detectWineLabels content = [] := by
  cases content with
  | missing => rfl
  | nonString => rfl
  | stringContent parsed =>
    cases parsed with
    | error e => rfl
    | ok j => cases j <;> simp_all [malformedContent, detectWineLabels]

/-- C5: whenever the model response content is missing, not a string,
malformed JSON, or parses to a non-array, `detectWineLabels` returns the
empty sequence instead of raising, and `processWineImage` returns the
successful empty result without reading image dimensions or performing
any crop or store (its trace holds the detector call only). -/
theorem processWineImage_malformed_content
    (env : PipelineEnv) (s : String)
    (hc : malformedContent env.content = true)
    (hs : (dataUriMatch s).isSome = true) :
    detectWineLabels env.content = [] ∧
    processWineImage env s = (Except.ok ⟨[], []⟩, [PipelineEvent.detectCall]) := by
  obtain ⟨m, hm⟩ := Option.isSome_iff_exists.mp hs
  have hd := detectWineLabels_malformed_nil env.content hc
  exact ⟨hd, by simp [processWineImage, base64ToBuffer, hm, hd]⟩

/-- Witness environment for C5 and C6: the model reply is a string that
`JSON.parse` rejects. -/
def envC5 : PipelineEnv :=
  { content := ResponseContent.stringContent (Except.error "Unexpected token")
    metadata := { width := some 1000, height := some 1000 }
    cropFails := fun _ => false
    storeFails := fun _ => false
    ids := fun _ => "crop2"
    urlOf := fun key => "https://storage.example/" ++ key }

/-- Witness for C5 with a malformed-JSON reply on a valid data URI. -/
theorem processWineImage_malformed_content_witness :
    detectWineLabels envC5.content = [] ∧
    processWineImage envC5 "data:image/png;base64,AAAA" =
      (Except.ok ⟨[], []⟩, [PipelineEvent.detectCall]) :=
  processWineImage_malformed_content envC5 "data:image/png;base64,AAAA" rfl rfl

/-- C6: for every input string that does not match the
`data:image/<type>;base64,<payload>` shape, `processWineImage` fails with
"Invalid base64 image data" before the detector is invoked and before any
crop or store side effect occurs (its trace is empty). -/
theorem processWineImage_malformed_input
    (env : PipelineEnv) (s : String)
    (hs : dataUriMatch s = none) :
    processWineImage env s = (Except.error "Invalid base64 image data", []) := by
  simp [processWineImage, base64ToBuffer, hs]

/-- Witness for C6 at an input with no data-URI shape. -/
theorem processWineImage_malformed_input_witness :
    processWineImage envC5 "not-a-data-uri" =
      (Except.error "Invalid base64 image data", []) :=
  processWineImage_malformed_input envC5 "not-a-data-uri" rfl

/-- C8: whenever the decoded image's metadata lacks a width or a height,
`getImageDimensions` substitutes 1000 for the missing dimension instead
of failing, and the pipeline proceeds, reading exactly those dimensions
before the per-box loop. -/
theorem getImageDimensions_fallback (metadata : SharpMetadata) :
    (metadata.width = none → (getImageDimensions metadata).width = 1000) ∧
    (metadata.height = none → (getImageDimensions metadata).height = 1000) ∧
    (∀ (env : PipelineEnv) (s : String) (boxes : List BoundingBox),
      env.metadata = metadata →
      env.content = ResponseContent.stringContent (Except.ok (ModelJson.jArr boxes)) →
      boxes ≠ [] →
      (dataUriMatch s).isSome = true →
      ∃ events, (processWineImage env s).2 =
        PipelineEvent.detectCall ::
          PipelineEvent.readDims (getImageDimensions metadata) :: events) := by
  refine ⟨fun h => by simp [getImageDimensions, jsOrDefault, h],
          fun h => by simp [getImageDimensions, jsOrDefault, h],
          fun env s boxes hmeta hcontent hne hs => ?_⟩
  obtain ⟨m, hm⟩ := Option.isSome_iff_exists.mp hs
  have hdet : detectWineLabels env.content = boxes := by rw [hcontent]; rfl
  have hlen : ¬ boxes.length = 0 := fun h0 => hne (List.length_eq_zero.mp h0)
  exact ⟨(processBoxes env 0 boxes).2.2,
    by simp [processWineImage, base64ToBuffer, hm, hdet, hlen, hmeta]⟩

/-- Witness environment for C8: metadata with both dimensions missing. -/
def envC8 : PipelineEnv :=
  { content := ResponseContent.stringContent (Except.ok (ModelJson.jArr [boxA]))
    metadata := { width := none, height := none }
    cropFails := fun _ => false
    storeFails := fun _ => false
    ids := fun _ => "crop3"
    urlOf := fun key => "https://storage.example/" ++ key }

/-- Witness for C8 at metadata with no width and no height. -/
theorem getImageDimensions_fallback_witness :
    (getImageDimensions ⟨none, none⟩).width = 1000 ∧
    (getImageDimensions ⟨none, none⟩).height = 1000 ∧
    ∃ events, (processWineImage envC8 "data:image/png;base64,AAAA").2 =
      PipelineEvent.detectCall ::
        PipelineEvent.readDims (getImageDimensions ⟨none, none⟩) :: events :=
  ⟨(getImageDimensions_fallback ⟨none, none⟩).1 rfl,
   (getImageDimensions_fallback ⟨none, none⟩).2.1 rfl,
   (getImageDimensions_fallback ⟨none, none⟩).2.2 envC8 "data:image/png;base64,AAAA"
     [boxA] rfl rfl (by simp) rfl⟩

/-- Witness box for C10, with coordinates outside [0, 1000] and with
`xmax < xmin` and `ymax < ymin`. -/
def boxC10 : BoundingBox := ⟨-50, 2000, -100, 1500⟩

/-- Witness environment for C10: the model reply parses to an array
holding only `boxC10`, and no per-box step fails. -/
def envC10 : PipelineEnv :=
  { content := ResponseContent.stringContent (Except.ok (ModelJson.jArr [boxC10]))
    metadata := { width := some 800, height := some 600 }
    cropFails := fun _ => false
    storeFails := fun _ => false
    ids := fun _ => "crop0"
    urlOf := fun key => "https://storage.example/" ++ key }

/-- C10: whenever the model response content is a string that parses to a
JSON array, `detectWineLabels` returns that array verbatim with no
element validated; in particular the out-of-range, inverted `boxC10` is
handed unchanged to the downstream crop step and recorded unchanged in
the results. -/
theorem detectWineLabels_no_validation :
    (∀ boxes : List BoundingBox,
      detectWineLabels
        (ResponseContent.stringContent (Except.ok (ModelJson.jArr boxes))) = boxes) ∧
    processWineImage envC10 "data:image/png;base64,AAAA" =
      (Except.ok
        ⟨[⟨"crop0", "https://storage.example/wine-crops/crop0.png", bboxTuple boxC10⟩],
         [bboxTuple boxC10]⟩,
       [PipelineEvent.detectCall, PipelineEvent.readDims ⟨800, 600⟩,
        PipelineEvent.cropCall 0 boxC10, PipelineEvent.storeCall 0]) :=
  ⟨fun _ => rfl, rfl⟩
